import Mathlib

/-!
# eth_cashier: ledger store and settlement workflows

A shallow embedding of `database.go`, `rpc.go`, `coinmarketcap.go` and `api.go`.

Modelling conventions.

* `float64` amounts (ledger balances, prices) are the finite values, taken as exact
  rationals `ℚ`: sums, differences, products and quotients are exact, and NaN and the
  infinities do not occur.  The one place where a non-finite value can arise, the division
  by a zero price in `Withdraw`, is modelled explicitly (`fdiv`).
* `*big.Int` values are `Int`.
* Go `error` values are `Option GoError` (`none` is `nil`), a pointer `*User` is
  `Option User` (`none` is `nil`), and a nil dereference is the outcome `Outcome.nilDeref`.
* The SQL table `users` is the list of its rows.  A statement run inside a transaction can
  fail for reasons outside the program (driver, disk, lock): `SqlFaults` says which
  statement of one transaction fails, if any.  A transaction that does not commit leaves
  the table as it was (`defer tx.Rollback()`).
* The chain node, the signing library and the price service are external: their answers
  are fields of `Env`, and every request sent to them is appended to `World.log`.
-/

namespace EthCashier

/-! ## Errors -/

/-- Go error values: the two sentinels of `database.go`, `sql.ErrNoRows`, errors coming
from a library or a remote system, and errors built by `fmt.Errorf`. -/
inductive GoError where
  | ErrInsufficientFunds
  | ErrNegativeAmount
  | ErrNoRows
  | lib (msg : String)
  | errorf (msg : String)
deriving DecidableEq, Repr

/-- The `Error()` method: the message of an error. -/
def GoError.Error : GoError → String
  | .ErrInsufficientFunds => "insufficient funds for withdrawal"
  | .ErrNegativeAmount => "amount cannot be negative"
  | .ErrNoRows => "sql: no rows in result set"
  | .lib msg => msg
  | .errorf msg => msg

/-- The call `fmt.Errorf(head + "%v", err)`: a new error whose message is `head` followed
by the message of `err`. -/
def Errorf (head : String) (err : GoError) : GoError :=
  .errorf (head ++ err.Error)

/-! ## user.go: rows -/

/-- The struct `wallet`. -/
structure wallet where
  EncryptedPrivateKey : String
  PublicKey : String
deriving DecidableEq, Repr

/-- The struct `User`, one row of table `users`. -/
structure User where
  ID : String
  Wallet : wallet
  Balance : ℚ
deriving DecidableEq, Repr

/-! ## database.go -/

/-- The database: the rows of table `users`. -/
structure DB where
  users : List User
deriving DecidableEq, Repr

/-- Which statement of one transaction fails for an outside reason, if any. -/
structure SqlFaults where
  begin : Option GoError
  query : Option GoError
  exec : Option GoError
  commit : Option GoError
deriving DecidableEq, Repr

/-- No statement fails. -/
def SqlFaults.healthy : SqlFaults :=
  { begin := none, query := none, exec := none, commit := none }

/-- The first row with the given id: what `QueryRow(... WHERE id = ?)` selects. -/
def DB.row (db : DB) (id : String) : Option User :=
  db.users.find? (fun u => u.ID == id)

/-- The statement `SELECT balance FROM users WHERE id = ?` followed by `Scan`: the balance of
the row, `sql.ErrNoRows` when there is no row, or the outside failure. -/
def DB.scanBalance (db : DB) (fault : Option GoError) (id : String) : Except GoError ℚ :=
  match fault with
  | some e => .error e
  | none =>
    match db.row id with
    | none => .error .ErrNoRows
    | some u => .ok u.Balance

/-- The statement `UPDATE users SET balance = ? WHERE id = ?`. -/
def DB.setBalance (db : DB) (newBalance : ℚ) (id : String) : DB :=
  { users := db.users.map (fun u => if u.ID == id then { u with Balance := newBalance } else u) }

/-- The stored balance of an account, if the account exists. -/
def DB.balanceOf (db : DB) (id : String) : Option ℚ :=
  (db.row id).map (fun u => u.Balance)

/-- `CreateUser`: `INSERT INTO users`; `id` is the primary key, so an id that is already
present is refused. -/
def CreateUser (db : DB) (fault : Option GoError) (user : User) : DB × Option GoError :=
  match fault with
  | some e => (db, some e)
  | none =>
    if (db.row user.ID).isSome then
      (db, some (.lib "UNIQUE constraint failed: users.id"))
    else
      ({ users := db.users ++ [user] }, none)

/-- `GetUser`: `(nil, nil)` when there is no row, `(nil, err)` on another failure. -/
def GetUser (db : DB) (fault : Option GoError) (id : String) : Option User × Option GoError :=
  let scanned : Except GoError User :=
    match fault with
    | some e => .error e
    | none =>
      match db.row id with
      | none => .error .ErrNoRows
      | some u => .ok u
  match scanned with
  | .error e => if e = .ErrNoRows then (none, none) else (none, some e)
  | .ok u => (some u, none)

/-- `AddToBalance` adds the amount to the balance of the user. -/
def AddToBalance (db : DB) (f : SqlFaults) (id : String) (amount : ℚ) : DB × Option GoError :=
  if amount < 0 then (db, some .ErrNegativeAmount)
  else
    match f.begin with
    | some e => (db, some e)
    | none =>
      match db.scanBalance f.query id with
      | .error e => (db, some e)
      | .ok currentBalance =>
        let newBalance := currentBalance + amount
        match f.exec with
        | some e => (db, some e)
        | none =>
          match f.commit with
          | some e => (db, some e)
          | none => (db.setBalance newBalance id, none)

/-- `SubtractFromBalance` subtracts the amount from the balance of the user. -/
def SubtractFromBalance (db : DB) (f : SqlFaults) (id : String) (amount : ℚ) :
    DB × Option GoError :=
  if amount < 0 then (db, some .ErrNegativeAmount)
  else
    match f.begin with
    | some e => (db, some e)
    | none =>
      match db.scanBalance f.query id with
      | .error e => (db, some e)
      | .ok currentBalance =>
        if currentBalance < amount then (db, some .ErrInsufficientFunds)
        else
          let newBalance := currentBalance - amount
          match f.exec with
          | some e => (db, some e)
          | none =>
            match f.commit with
            | some e => (db, some e)
            | none => (db.setBalance newBalance id, none)

/-! ## rpc.go and coinmarketcap.go: the external systems -/

/-- An ECDSA private key, as produced by the signing library. -/
structure PrivateKey where
  D : Nat
deriving DecidableEq, Repr

/-- The fields `types.NewTransaction` is given. -/
structure Transaction where
  nonce : Nat
  toAddress : String
  amount : Int
  gasLimit : Nat
  gasPrice : Int
deriving DecidableEq, Repr

/-- The struct `PriceQuote`. -/
structure PriceQuote where
  Price : ℚ
deriving DecidableEq, Repr

/-- The struct `CryptoCurrency`. -/
structure CryptoCurrency where
  Quote : List (String × PriceQuote)
deriving DecidableEq, Repr

/-- The struct `CMCResponse`. -/
structure CMCResponse where
  Data : List (String × CryptoCurrency)
deriving DecidableEq, Repr

/-- What one HTTP exchange with the price service yields: the failure of `client.Do`, the
failure of `ioutil.ReadAll`, the status code, the body, and what `json.Unmarshal` makes of
the body. -/
structure HttpExchange where
  doErr : Option GoError
  readErr : Option GoError
  StatusCode : Nat
  body : String
  unmarshal : Except GoError CMCResponse

/-- A request sent to an external system. -/
inductive Call where
  | BalanceAt (account : String)
  | PendingNonceAt (account : String)
  | SuggestGasPrice
  | NetworkID
  | SendTransaction (tx : Transaction)
  | QuotesLatest
deriving DecidableEq, Repr

/-- The answers of the external systems during one operation, the outside failures of the
store transactions the operation runs, and the operator key held by the `API` struct. -/
structure Env where
  hexDecodeString : String → Except GoError (List UInt8)
  ToECDSA : List UInt8 → Except GoError PrivateKey
  PubkeyToAddress : PrivateKey → String
  IsHexAddress : String → Bool
  HexToAddress : String → String
  BalanceAt : String → Except GoError Int
  PendingNonceAt : String → Except GoError Nat
  SuggestGasPrice : Except GoError Int
  NetworkID : Except GoError Int
  SignTx : Transaction → Int → PrivateKey → Option GoError
  SendTransaction : Transaction → Option GoError
  quotes : HttpExchange
  debitFaults : SqlFaults
  creditFaults : SqlFaults
  getUserFault : Option GoError
  adminPrivateKey : PrivateKey
  int64OutOfRange : Int

/-- The state an operation acts on: the store and the requests sent so far. -/
structure World where
  db : DB
  log : List Call
deriving DecidableEq, Repr

/-- Append a request to the log. -/
def World.record (w : World) (c : Call) : World :=
  { w with log := w.log ++ [c] }

/-- `ParseECDSAPrivateKeyFromHex`: decode the hex string, then `crypto.ToECDSA`. -/
def ParseECDSAPrivateKeyFromHex (env : Env) (hexString : String) : Except GoError PrivateKey :=
  match env.hexDecodeString hexString with
  | .error e => .error e
  | .ok b =>
    match env.ToECDSA b with
    | .error e => .error e
    | .ok privateKey => .ok privateKey

/-- `RPCClient.GetBalance` returns the balance of the given address. -/
def GetBalance (env : Env) (w : World) (address : String) : World × Except GoError Int :=
  if !env.IsHexAddress address then (w, .error (.errorf "invalid address format"))
  else
    let account := env.HexToAddress address
    let w1 := w.record (.BalanceAt account)
    match env.BalanceAt account with
    | .error e => (w1, .error (Errorf "failed to get balance: " e))
    | .ok balance => (w1, .ok balance)

/-- `RPCClient.Send`.  The type assertion on the public key of an ECDSA private key always
succeeds, so its failure branch is left out. -/
def Send (env : Env) (w : World) (src : PrivateKey) (dest : String) (amount : Int) :
    World × Option GoError :=
  let fromAddress := env.PubkeyToAddress src
  if !env.IsHexAddress dest then (w, some (.errorf "invalid recipient address format"))
  else
    let toAddress := env.HexToAddress dest
    let w1 := w.record (.PendingNonceAt fromAddress)
    match env.PendingNonceAt fromAddress with
    | .error e => (w1, some (Errorf "failed to get nonce: " e))
    | .ok nonce =>
      let w2 := w1.record .SuggestGasPrice
      match env.SuggestGasPrice with
      | .error e => (w2, some (Errorf "failed to get gas price: " e))
      | .ok gasPrice =>
        let tx : Transaction :=
          { nonce := nonce, toAddress := toAddress, amount := amount, gasLimit := 21000,
            gasPrice := gasPrice }
        let w3 := w2.record .NetworkID
        match env.NetworkID with
        | .error e => (w3, some (Errorf "failed to get chain id: " e))
        | .ok chainID =>
          let gasCost := gasPrice * 21000
          let totalCost := amount + gasCost
          match GetBalance env w3 fromAddress with
          | (w4, .error e) => (w4, some (Errorf "failed to get sender balance: " e))
          | (w4, .ok balance) =>
            if balance < totalCost then
              (w4, some (.errorf ("insufficient funds for transfer: need " ++ toString totalCost
                ++ " but got " ++ toString balance)))
            else
              match env.SignTx tx chainID src with
              | some e => (w4, some (Errorf "failed to sign transaction: " e))
              | none =>
                let w5 := w4.record (.SendTransaction tx)
                match env.SendTransaction tx with
                | some e => (w5, some (Errorf "failed to send transaction: " e))
                | none => (w5, none)

/-- `CMCClient.GetEthereumPrice` returns the current price of Ethereum in USD.  Building the
request from the constant URL cannot fail, so that branch is left out. -/
def GetEthereumPrice (env : Env) (w : World) : World × ℚ × Option GoError :=
  let w1 := w.record .QuotesLatest
  match env.quotes.doErr with
  | some e => (w1, 0, some (Errorf "error making request: " e))
  | none =>
    match env.quotes.readErr with
    | some e => (w1, 0, some (Errorf "error reading response: " e))
    | none =>
      if env.quotes.StatusCode ≠ 200 then
        (w1, 0, some (.errorf ("API request failed with status "
          ++ toString env.quotes.StatusCode ++ ": " ++ env.quotes.body)))
      else
        match env.quotes.unmarshal with
        | .error e => (w1, 0, some (Errorf "error parsing response: " e))
        | .ok response =>
          match response.Data.lookup "ETH" with
          | none => (w1, 0, some (.errorf "ethereum data not found in response"))
          | some ethData =>
            match ethData.Quote.lookup "USD" with
            | none => (w1, 0, some (.errorf "USD quote not found in response"))
            | some usdQuote => (w1, usdQuote.Price, none)

/-! ## api.go -/

/-- What `Check` or `Withdraw` does in the end: return a pair `(float64, error)`, or
dereference a nil `*User`. -/
inductive Outcome where
  | ret (value : ℚ) (err : Option GoError)
  | nilDeref
deriving DecidableEq, Repr

/-- The fee reserve of `Check`: `big.NewInt(1000000000000000)`, 0.001 ETH in wei. -/
def gasReserve : Int := 1000000000000000

/-- `API.Check`: sweep the custodial wallet of the user into the operator wallet and credit
the ledger.  The type assertion on the public key of the operator key always succeeds, so
its failure branch is left out. -/
def Check (env : Env) (w : World) (user : Option User) : World × Outcome :=
  match user with
  | none => (w, .nilDeref)
  | some u =>
    match ParseECDSAPrivateKeyFromHex env u.Wallet.EncryptedPrivateKey with
    | .error e => (w, .ret 0 (some (Errorf "failed to parse private key: " e)))
    | .ok privateKey =>
      match GetBalance env w u.Wallet.PublicKey with
      | (w1, .error e) => (w1, .ret 0 (some (Errorf "failed to get wallet balance: " e)))
      | (w1, .ok balance) =>
        if balance = 0 then (w1, .ret 0 (some (.errorf "wallet has no ETH balance")))
        else
          let adminAddress := env.PubkeyToAddress env.adminPrivateKey
          let transferAmount := balance - gasReserve
          match Send env w1 privateKey adminAddress transferAmount with
          | (w2, some e) => (w2, .ret 0 (some (Errorf "failed to send ETH to admin wallet: " e)))
          | (w2, none) =>
            match GetEthereumPrice env w2 with
            | (w3, _, some e) => (w3, .ret 0 (some (Errorf "failed to get ETH price: " e)))
            | (w3, ethPrice, none) =>
              let ethFloat64 : ℚ := (transferAmount : ℚ) / 1000000000000000000
              let usdValue := ethFloat64 * ethPrice
              match AddToBalance w3.db env.creditFaults u.ID usdValue with
              | (db4, some e) =>
                ({ w3 with db := db4 }, .ret 0 (some (Errorf "failed to credit user balance: " e)))
              | (db4, none) =>
                let w4 : World := { w3 with db := db4 }
                match GetUser w4.db env.getUserFault u.ID with
                | (_, some e) => (w4, .ret 0 (some (Errorf "failed to get updated balance: " e)))
                | (none, none) => (w4, .nilDeref)
                | (some updatedUser, none) => (w4, .ret updatedUser.Balance none)

/-- Float division `a / b` on finite values: `none` when the result is not finite (`b` is
zero, giving an infinity or NaN). -/
def fdiv (a b : ℚ) : Option ℚ :=
  if b = 0 then none else some (a / b)

/-- The conversion `int64(x)` of a float: the value truncated toward zero when that fits in
64 bits; otherwise (also for a value that is not finite) the result depends on the
platform. -/
def toInt64 (outOfRange : Int) (x : Option ℚ) : Int :=
  match x with
  | none => outOfRange
  | some q =>
    let t : Int := if 0 ≤ q then ⌊q⌋ else ⌈q⌉
    if -9223372036854775808 ≤ t ∧ t ≤ 9223372036854775807 then t else outOfRange

/-- The wei amount `Withdraw` pays out for a quote amount at a price. -/
def weiAmountOf (outOfRange : Int) (amount ethPrice : ℚ) : Int :=
  let ethAmount := fdiv amount ethPrice
  toInt64 outOfRange (ethAmount.map (fun x => x * 1000000)) * 1000000000000

/-- `API.Withdraw` sends money back to the user. -/
def Withdraw (env : Env) (w : World) (user : Option User) (amount : ℚ) (userAddress : String) :
    World × Outcome :=
  match user with
  | none => (w, .nilDeref)
  | some u =>
    match SubtractFromBalance w.db env.debitFaults u.ID amount with
    | (db1, some err) =>
      ({ w with db := db1 }, .ret 0 (some (Errorf "Unable to subtract from balance: " err)))
    | (db1, none) =>
      let w1 : World := { w with db := db1 }
      match GetEthereumPrice env w1 with
      | (w2, _, some err) =>
        let w3 : World := { w2 with db := (AddToBalance w2.db env.creditFaults u.ID amount).1 }
        (w3, .ret 0 (some (Errorf "failed to get ETH price: " err)))
      | (w2, ethPrice, none) =>
        let weiAmount := weiAmountOf env.int64OutOfRange amount ethPrice
        match Send env w2 env.adminPrivateKey userAddress weiAmount with
        | (w3, some err) =>
          let w4 : World := { w3 with db := (AddToBalance w3.db env.creditFaults u.ID amount).1 }
          (w4, .ret 0 (some (Errorf "failed to send ETH: " err)))
        | (w3, none) =>
          match GetUser w3.db env.getUserFault u.ID with
          | (_, some err) => (w3, .ret 0 (some (Errorf "failed to get updated balance: " err)))
          | (none, none) => (w3, .nilDeref)
          | (some updatedUser, none) => (w3, .ret updatedUser.Balance none)

/-! ## api.go: the HTTP handlers -/

/-- The struct `CheckRequest`. -/
structure CheckRequest where
  User : String
deriving DecidableEq, Repr

/-- The struct `WithdrawRequest`. -/
structure WithdrawRequest where
  User : String
  Wallet : String
  Amount : ℚ
deriving DecidableEq, Repr

/-- The struct `UserRequest`. -/
structure UserRequest where
  User : String
deriving DecidableEq, Repr

/-- An HTTP request as a handler sees it: the method, and what decoding the JSON body into
the request struct of the handler yields. -/
structure Request (β : Type) where
  Method : String
  decoded : Except GoError β

/-- What a handler does in the end: `http.Error` with a message and a status code, an encoded
`BalanceResponse`, an encoded `UserResponse`, or a nil dereference, which makes the handler
goroutine panic before any response is written. -/
inductive Response where
  | httpError (msg : String) (code : Nat)
  | BalanceResponse (Balance : ℚ)
  | UserResponse (User : String) (Balance : ℚ) (WalletPublicKey : String)
  | panicked
deriving DecidableEq, Repr

/-- `API.HandleCheck`.  `lookupFault` is the outside failure the first `GetUser` meets. -/
def HandleCheck (env : Env) (lookupFault : Option GoError) (w : World)
    (r : Request CheckRequest) : World × Response :=
  if r.Method ≠ "POST" then (w, .httpError "Method not allowed" 405)
  else
    match r.decoded with
    | .error _ => (w, .httpError "Invalid request body" 400)
    | .ok req =>
      match GetUser w.db lookupFault req.User with
      | (_, some _) => (w, .httpError "Failed to get user" 500)
      | (none, none) => (w, .httpError "User not found" 404)
      | (some user, none) =>
        match Check env w (some user) with
        | (w2, .nilDeref) => (w2, .panicked)
        | (w2, .ret _ (some err)) =>
          (w2, .httpError ("Error checking balance: " ++ err.Error) 500)
        | (w2, .ret newBalance none) => (w2, .BalanceResponse newBalance)

/-- `API.HandleWithdraw` processes a withdrawal request.  `lookupFault` is the outside
failure the first `GetUser` meets. -/
def HandleWithdraw (env : Env) (lookupFault : Option GoError) (w : World)
    (r : Request WithdrawRequest) : World × Response :=
  if r.Method ≠ "POST" then (w, .httpError "Method not allowed" 405)
  else
    match r.decoded with
    | .error _ => (w, .httpError "Invalid request body" 400)
    | .ok req =>
      match GetUser w.db lookupFault req.User with
      | (_, some _) => (w, .httpError "Failed to find user" 500)
      | (user, none) =>
        match Withdraw env w user req.Amount req.Wallet with
        | (w2, .nilDeref) => (w2, .panicked)
        | (w2, .ret _ (some _)) => (w2, .httpError "Failed to withdraw balance" 500)
        | (w2, .ret newBalance none) => (w2, .BalanceResponse newBalance)

/-- `API.HandleGetUser` gets information about a specific user. -/
def HandleGetUser (lookupFault : Option GoError) (w : World) (r : Request UserRequest) :
    World × Response :=
  if r.Method ≠ "POST" then (w, .httpError "Method not allowed" 405)
  else
    match r.decoded with
    | .error _ => (w, .httpError "Invalid request body" 400)
    | .ok req =>
      match GetUser w.db lookupFault req.User with
      | (_, some _) => (w, .httpError "Failed to get user" 500)
      | (none, none) => (w, .httpError "User not found" 404)
      | (some user, none) =>
        (w, .UserResponse user.ID user.Balance user.Wallet.PublicKey)

/-! ## What the external calls yield, whatever was requested before -/

/-- The store and the request log before anything has happened. -/
def World.blank : World := { db := { users := [] }, log := [] }

/-- The result `GetBalance` returns for an address. -/
def balanceResult (env : Env) (address : String) : Except GoError Int :=
  (GetBalance env World.blank address).2

/-- The requests `GetBalance` sends for an address. -/
def balanceCalls (env : Env) (address : String) : List Call :=
  (GetBalance env World.blank address).1.log

/-- The error `Send` returns for a transfer (`none` when the transfer went through). -/
def sendError (env : Env) (src : PrivateKey) (dest : String) (amount : Int) : Option GoError :=
  (Send env World.blank src dest amount).2

/-- The requests `Send` sends for a transfer. -/
def sendCalls (env : Env) (src : PrivateKey) (dest : String) (amount : Int) : List Call :=
  (Send env World.blank src dest amount).1.log

/-- The pair `GetEthereumPrice` returns. -/
def quoteResult (env : Env) : ℚ × Option GoError :=
  (GetEthereumPrice env World.blank).2

/-! ## Sequences of ledger calls -/

/-- One call of a ledger primitive, with the outside failures its transaction meets. -/
inductive LedgerOp where
  | credit (f : SqlFaults) (id : String) (amount : ℚ)
  | debit (f : SqlFaults) (id : String) (amount : ℚ)
deriving DecidableEq, Repr

/-- The store after one call; the returned error is dropped. -/
def LedgerOp.run (db : DB) : LedgerOp → DB
  | .credit f id amount => (AddToBalance db f id amount).1
  | .debit f id amount => (SubtractFromBalance db f id amount).1

/-- The store after a sequence of calls, run from left to right. -/
def runOps (db : DB) (ops : List LedgerOp) : DB :=
  ops.foldl LedgerOp.run db

/-! ## Sample data -/

/-- A sample account with ledger balance 10. -/
def alice : User :=
  { ID := "alice", Wallet := { EncryptedPrivateKey := "a11ce", PublicKey := "0xA11CE" },
    Balance := 10 }

/-- A store holding the sample account only. -/
def aliceDB : DB := { users := [alice] }

/-- A freshly provisioned account: ledger balance 0, as `NewUser` sets it. -/
def carol : User :=
  { ID := "carol", Wallet := { EncryptedPrivateKey := "ca401", PublicKey := "0xCA401" },
    Balance := 0 }

/-- An environment in which every external call succeeds: the custodial address holds
1 ETH, the gas price is 1 gwei, the price service quotes 3000 USD, and no store transaction
meets an outside failure. -/
def calmEnv : Env :=
  { hexDecodeString := fun h =>
      if h = "a11ce" then .ok [7]
      else if h = "ca401" then .ok [9]
      else .error (.lib "encoding/hex: invalid byte")
    ToECDSA := fun b =>
      match b with
      | [x] => .ok { D := x.toNat }
      | _ => .error (.lib "invalid length, need 256 bits")
    PubkeyToAddress := fun k =>
      if k.D = 1 then "0xAD" else if k.D = 7 then "0xA11CE" else "0xCA401"
    IsHexAddress := fun _ => true
    HexToAddress := fun a => a
    BalanceAt := fun _ => .ok 1000000000000000000
    PendingNonceAt := fun _ => .ok 0
    SuggestGasPrice := .ok 1000000000
    NetworkID := .ok 1
    SignTx := fun _ _ _ => none
    SendTransaction := fun _ => none
    quotes :=
      { doErr := none, readErr := none, StatusCode := 200, body := "",
        unmarshal := .ok { Data := [("ETH", { Quote := [("USD", { Price := 3000 })] })] } }
    debitFaults := .healthy
    creditFaults := .healthy
    getUserFault := none
    adminPrivateKey := { D := 1 }
    int64OutOfRange := -9223372036854775808 }

/-- As `calmEnv`, but the price service cannot be reached. -/
def noQuoteEnv : Env :=
  { calmEnv with
    quotes :=
      { doErr := some (.lib "dial tcp: i/o timeout"), readErr := none, StatusCode := 0,
        body := "", unmarshal := .error (.lib "unexpected end of JSON input") } }

/-- As `noQuoteEnv`, and moreover the store refuses to open the transaction of the credit. -/
def lockedCreditEnv : Env :=
  { noQuoteEnv with
    creditFaults :=
      { begin := some (.lib "database is locked"), query := none, exec := none, commit := none } }

/-- As `calmEnv`, but the custodial address holds exactly the fee reserve, 0.001 ETH. -/
def reserveEnv : Env :=
  { calmEnv with BalanceAt := fun _ => .ok 1000000000000000 }

/-- As `calmEnv`, but the custodial address holds nothing. -/
def emptyWalletEnv : Env :=
  { calmEnv with BalanceAt := fun _ => .ok 0 }

/-- The sample store with an empty request log. -/
def aliceWorld : World := { db := aliceDB, log := [] }

/-- A withdrawal request for a user id that is not in the sample store. -/
def bobWithdraw : Request WithdrawRequest :=
  { Method := "POST", decoded := .ok { User := "bob", Wallet := "0xB0B", Amount := 1 } }

/-! ## The ledger store: lemmas -/

theorem row_setBalance (db : DB) (nb : ℚ) (id id2 : String) :
    (db.setBalance nb id).row id2
      = (db.row id2).map (fun u => if u.ID == id then { u with Balance := nb } else u) := by
  have hcomp : ((fun u : User => u.ID == id2) ∘
      fun u : User => if u.ID == id then { u with Balance := nb } else u)
      = fun u : User => u.ID == id2 := by
    funext u
    by_cases h : u.ID = id <;> simp [h]
  simp only [DB.row, DB.setBalance, List.find?_map, hcomp]

theorem balanceOf_setBalance_same (db : DB) (nb : ℚ) (id : String) :
    (db.setBalance nb id).balanceOf id = (db.balanceOf id).map (fun _ => nb) := by
  simp only [DB.balanceOf, row_setBalance]
  cases h : db.row id with
  | none => simp
  | some u =>
    have hu : u.ID = id := by
      have := List.find?_some h
      simpa using this
    simp [hu]

theorem balanceOf_setBalance_other (db : DB) (nb : ℚ) (id id2 : String) (h : id2 ≠ id) :
    (db.setBalance nb id).balanceOf id2 = db.balanceOf id2 := by
  simp only [DB.balanceOf, row_setBalance]
  cases h2 : db.row id2 with
  | none => simp
  | some u =>
    have hu : u.ID = id2 := by
      have := List.find?_some h2
      simpa using this
    have : ¬ u.ID = id := by rw [hu]; exact h
    simp [this]

theorem scanBalance_healthy (db : DB) (id : String) :
    db.scanBalance none id
      = match db.balanceOf id with
        | none => .error .ErrNoRows
        | some b => .ok b := by
  simp only [DB.scanBalance, DB.balanceOf]
  cases db.row id <;> rfl

theorem SubtractFromBalance_healthy (db : DB) (id : String) (A : ℚ) (hA : 0 ≤ A) :
    SubtractFromBalance db .healthy id A
      = match db.balanceOf id with
        | none => (db, some .ErrNoRows)
        | some B =>
          if B < A then (db, some .ErrInsufficientFunds) else (db.setBalance (B - A) id, none) := by
  have hA2 : ¬ A < 0 := not_lt.mpr hA
  simp only [SubtractFromBalance, SqlFaults.healthy, scanBalance_healthy, if_neg hA2]
  cases db.balanceOf id with
  | none => rfl
  | some B => by_cases h : B < A <;> simp [h]

theorem AddToBalance_healthy (db : DB) (id : String) (A : ℚ) (hA : 0 ≤ A) :
    AddToBalance db .healthy id A
      = match db.balanceOf id with
        | none => (db, some .ErrNoRows)
        | some B => (db.setBalance (B + A) id, none) := by
  have hA2 : ¬ A < 0 := not_lt.mpr hA
  simp only [AddToBalance, SqlFaults.healthy, scanBalance_healthy, if_neg hA2]
  cases db.balanceOf id <;> rfl

/-- A call of `SubtractFromBalance` that returns an error leaves the table as it was. -/
theorem SubtractFromBalance_error_unchanged (db : DB) (f : SqlFaults) (id : String) (A : ℚ)
    (h : (SubtractFromBalance db f id A).2 ≠ none) : (SubtractFromBalance db f id A).1 = db := by
  revert h
  unfold SubtractFromBalance
  repeat (first | split | simp)

/-- A call of `AddToBalance` that returns an error leaves the table as it was. -/
theorem AddToBalance_error_unchanged (db : DB) (f : SqlFaults) (id : String) (A : ℚ)
    (h : (AddToBalance db f id A).2 ≠ none) : (AddToBalance db f id A).1 = db := by
  revert h
  unfold AddToBalance
  repeat (first | split | simp)

theorem scanBalance_ok (db : DB) (q : Option GoError) (id : String) (b : ℚ)
    (h : db.scanBalance q id = .ok b) : db.balanceOf id = some b := by
  unfold DB.scanBalance at h
  cases q with
  | some e => simp at h
  | none =>
    simp only [DB.balanceOf]
    cases hr : db.row id with
    | none => simp [hr] at h
    | some u =>
      simp only [hr, Except.ok.injEq] at h
      simp [h]

/-- A call of `AddToBalance` that returns no error had a non-negative amount and an existing
account, and wrote the sum. -/
theorem AddToBalance_success (db : DB) (f : SqlFaults) (id : String) (A : ℚ)
    (h : (AddToBalance db f id A).2 = none) :
    ∃ cur, db.balanceOf id = some cur ∧ 0 ≤ A ∧
      (AddToBalance db f id A).1 = db.setBalance (cur + A) id := by
  unfold AddToBalance at h ⊢
  by_cases hA : A < 0
  · simp [hA] at h
  · cases hb : f.begin with
    | some e => simp [hA, hb] at h
    | none =>
      cases hs : db.scanBalance f.query id with
      | error e => simp [hA, hb, hs] at h
      | ok cur =>
        cases he : f.exec with
        | some e => simp [hA, hb, hs, he] at h
        | none =>
          cases hc : f.commit with
          | some e => simp [hA, hb, hs, he, hc] at h
          | none =>
            exact ⟨cur, scanBalance_ok db f.query id cur hs, not_lt.mp hA, by simp [hA]⟩

/-- A call of `SubtractFromBalance` that returns no error had a non-negative amount within
the balance of an existing account, and wrote the difference. -/
theorem SubtractFromBalance_success (db : DB) (f : SqlFaults) (id : String) (A : ℚ)
    (h : (SubtractFromBalance db f id A).2 = none) :
    ∃ cur, db.balanceOf id = some cur ∧ 0 ≤ A ∧ A ≤ cur ∧
      (SubtractFromBalance db f id A).1 = db.setBalance (cur - A) id := by
  unfold SubtractFromBalance at h ⊢
  by_cases hA : A < 0
  · simp [hA] at h
  · cases hb : f.begin with
    | some e => simp [hA, hb] at h
    | none =>
      cases hs : db.scanBalance f.query id with
      | error e => simp [hA, hb, hs] at h
      | ok cur =>
        by_cases hlt : cur < A
        · simp [hA, hb, hs, hlt] at h
        · cases he : f.exec with
          | some e => simp [hA, hb, hs, hlt, he] at h
          | none =>
            cases hc : f.commit with
            | some e => simp [hA, hb, hs, hlt, he, hc] at h
            | none =>
              exact ⟨cur, scanBalance_ok db f.query id cur hs, not_lt.mp hA, not_lt.mp hlt,
                by simp [hA, hlt]⟩

/-- One ledger call keeps a non-negative stored balance non-negative. -/
theorem run_keeps_nonneg (db : DB) (op : LedgerOp) (id : String) (B : ℚ)
    (hB : db.balanceOf id = some B) (h0 : 0 ≤ B) :
    ∃ B2, (op.run db).balanceOf id = some B2 ∧ 0 ≤ B2 := by
  cases op with
  | credit f id2 A =>
    simp only [LedgerOp.run]
    by_cases herr : (AddToBalance db f id2 A).2 = none
    · obtain ⟨cur, hcur, hA, hdb⟩ := AddToBalance_success db f id2 A herr
      rw [hdb]
      by_cases hid : id = id2
      · subst hid
        rw [hB] at hcur
        cases hcur
        exact ⟨B + A, by simp [balanceOf_setBalance_same, hB], add_nonneg h0 hA⟩
      · exact ⟨B, by rw [balanceOf_setBalance_other _ _ _ _ hid, hB], h0⟩
    · rw [AddToBalance_error_unchanged db f id2 A herr]
      exact ⟨B, hB, h0⟩
  | debit f id2 A =>
    simp only [LedgerOp.run]
    by_cases herr : (SubtractFromBalance db f id2 A).2 = none
    · obtain ⟨cur, hcur, _, hle, hdb⟩ := SubtractFromBalance_success db f id2 A herr
      rw [hdb]
      by_cases hid : id = id2
      · subst hid
        rw [hB] at hcur
        cases hcur
        exact ⟨B - A, by simp [balanceOf_setBalance_same, hB], sub_nonneg.mpr hle⟩
      · exact ⟨B, by rw [balanceOf_setBalance_other _ _ _ _ hid, hB], h0⟩
    · rw [SubtractFromBalance_error_unchanged db f id2 A herr]
      exact ⟨B, hB, h0⟩

/-- C3. Balance non-negativity. If the stored balance of an account is `B ≥ 0` (in
particular 0, as for a freshly created account), then after any finite sequence of
`AddToBalance` and `SubtractFromBalance` calls, on any accounts, with any amounts and
whatever outside failures the transactions meet, the account still has a stored balance
and it is `≥ 0`. -/
theorem balance_nonneg (ops : List LedgerOp) (db : DB) (id : String) (B : ℚ)
    (hB : db.balanceOf id = some B) (h0 : 0 ≤ B) :
    ∃ B2, (runOps db ops).balanceOf id = some B2 ∧ 0 ≤ B2 := by
  induction ops generalizing db B with
  | nil => exact ⟨B, hB, h0⟩
  | cons op ops ih =>
    obtain ⟨B1, hB1, h1⟩ := run_keeps_nonneg db op id B hB h0
    simpa [runOps] using ih (op.run db) B1 hB1 h1

/-- Witness of C3: an account created with balance 0, then a rejected debit, a credit, a
debit, a rejected negative credit and a rejected overdraft. -/
theorem balance_nonneg_witness :
    (CreateUser { users := [] } none carol).1.balanceOf "carol" = some 0 ∧
    ∃ B2, (runOps (CreateUser { users := [] } none carol).1
        [.debit .healthy "carol" 5, .credit .healthy "carol" 7, .debit .healthy "carol" 3,
          .credit .healthy "carol" (-9), .debit .healthy "carol" 100]).balanceOf "carol"
        = some B2 ∧ 0 ≤ B2 :=
  have hB : (CreateUser { users := [] } none carol).1.balanceOf "carol" = some 0 := by decide
  ⟨hB, balance_nonneg _ _ "carol" 0 hB (le_refl 0)⟩

/-! ## The external calls: lemmas -/

theorem GetBalance_eq (env : Env) (w : World) (a : String) :
    GetBalance env w a
      = ({ w with log := w.log ++ balanceCalls env a }, balanceResult env a) := by
  simp only [balanceCalls, balanceResult, GetBalance, World.record, World.blank]
  by_cases h : env.IsHexAddress a = true
  · cases hb : env.BalanceAt (env.HexToAddress a) <;> simp [h, hb]
  · simp [h]

theorem GetEthereumPrice_eq (env : Env) (w : World) :
    GetEthereumPrice env w = (w.record .QuotesLatest, quoteResult env) := by
  simp only [quoteResult, GetEthereumPrice, World.record, World.blank]
  repeat (first | split | simp)

theorem Send_eq (env : Env) (w : World) (k : PrivateKey) (d : String) (a : Int) :
    Send env w k d a
      = ({ w with log := w.log ++ sendCalls env k d a }, sendError env k d a) := by
  simp only [sendCalls, sendError, Send, GetBalance_eq, World.record, World.blank]
  by_cases hd : env.IsHexAddress d = true
  · cases hn : env.PendingNonceAt (env.PubkeyToAddress k) with
    | error e => simp [hd]
    | ok nonce =>
      cases hg : env.SuggestGasPrice with
      | error e => simp [hd]
      | ok gasPrice =>
        cases hc : env.NetworkID with
        | error e => simp [hd]
        | ok chainID =>
          cases hb : balanceResult env (env.PubkeyToAddress k) with
          | error e => simp [hd]
          | ok balance =>
            simp only [hd]
            repeat (first | split | simp)
  · simp [hd]

/-- A balance read that returns a balance sent exactly one request, for that address. -/
theorem balanceCalls_of_ok (env : Env) (a : String) (b : Int)
    (h : balanceResult env a = .ok b) :
    balanceCalls env a = [.BalanceAt (env.HexToAddress a)] ∧
      env.BalanceAt (env.HexToAddress a) = .ok b := by
  simp only [balanceCalls, balanceResult, GetBalance, World.record, World.blank] at h ⊢
  by_cases hh : env.IsHexAddress a = true
  · cases hb : env.BalanceAt (env.HexToAddress a) <;> simp_all
  · simp [hh] at h

/-- C5. Withdrawal with insufficient funds. For an account with balance `B ≥ 0` and a
requested amount `A > B`, `Withdraw` returns the error wrapping `ErrInsufficientFunds` and
leaves the world as it was: the stored balance is still `B` and the request log is the
same, so neither the price service nor the chain node was called. -/
theorem Withdraw_insufficient_funds (env : Env) (w : World) (u : User) (A B : ℚ)
    (addr : String) (hB : w.db.balanceOf u.ID = some B) (h0 : 0 ≤ B) (hlt : B < A)
    (hdebit : env.debitFaults = .healthy) :
    Withdraw env w (some u) A addr
        = (w, .ret 0 (some (Errorf "Unable to subtract from balance: " .ErrInsufficientFunds))) ∧
    (Withdraw env w (some u) A addr).1.db.balanceOf u.ID = some B ∧
    (Withdraw env w (some u) A addr).1.log = w.log := by
  have hA : 0 ≤ A := le_of_lt (lt_of_le_of_lt h0 hlt)
  have hsub : SubtractFromBalance w.db env.debitFaults u.ID A
      = (w.db, some .ErrInsufficientFunds) := by
    rw [hdebit, SubtractFromBalance_healthy w.db u.ID A hA, hB]
    simp [hlt]
  have hW : Withdraw env w (some u) A addr
      = (w, .ret 0 (some (Errorf "Unable to subtract from balance: " .ErrInsufficientFunds))) := by
    simp only [Withdraw]
    rw [hsub]
  rw [hW]
  exact ⟨rfl, hB, rfl⟩

/-- Witness of C5: a withdrawal of 11 from the sample account, whose balance is 10. -/
theorem Withdraw_insufficient_funds_witness :
    Withdraw calmEnv aliceWorld (some alice) 11 "0xB0B"
        = (aliceWorld,
            .ret 0 (some (Errorf "Unable to subtract from balance: " .ErrInsufficientFunds))) ∧
    (Withdraw calmEnv aliceWorld (some alice) 11 "0xB0B").1.db.balanceOf alice.ID = some 10 ∧
    (Withdraw calmEnv aliceWorld (some alice) 11 "0xB0B").1.log = aliceWorld.log :=
  Withdraw_insufficient_funds calmEnv aliceWorld alice 11 10 "0xB0B" (by decide)
    (by norm_num) (by norm_num) rfl

/-- What `Withdraw` returns does not depend on the outside failures the compensating credit
meets: the error of that credit is never looked at. -/
theorem Withdraw_outcome_ignores_credit (env : Env) (f : SqlFaults) (w : World)
    (user : Option User) (A : ℚ) (addr : String) :
    (Withdraw { env with creditFaults := f } w user A addr).2
      = (Withdraw env w user A addr).2 := by
  cases user with
  | none => rfl
  | some u =>
    have hq : quoteResult { env with creditFaults := f } = quoteResult env := rfl
    have hs : sendError { env with creditFaults := f } = sendError env := rfl
    have hc : sendCalls { env with creditFaults := f } = sendCalls env := rfl
    simp only [Withdraw, GetEthereumPrice_eq, Send_eq, World.record, hq, hs, hc]
    rcases SubtractFromBalance w.db env.debitFaults u.ID A with ⟨db1, e1⟩
    cases e1 with
    | some e => rfl
    | none =>
      dsimp only
      rcases quoteResult env with ⟨price, qe⟩
      cases qe with
      | some e => rfl
      | none =>
        dsimp only
        cases sendError env env.adminPrivateKey addr (weiAmountOf env.int64OutOfRange A price) with
        | some e => rfl
        | none => rfl

/-- C6, evaluated. The sample account (balance 10) withdraws 4 while the price service is
unreachable. When the compensating `AddToBalance` fails (the store is locked), `Withdraw`
returns exactly what it returns when the compensation went through, the error about the
price alone, although the stored balance stays at 6 instead of going back to 10. -/
theorem Withdraw_hides_failed_compensation :
    (AddToBalance (SubtractFromBalance aliceDB .healthy alice.ID 4).1
        lockedCreditEnv.creditFaults alice.ID 4).2 = some (.lib "database is locked") ∧
    (Withdraw lockedCreditEnv aliceWorld (some alice) 4 "0xB0B").2
      = .ret 0 (some (.errorf "failed to get ETH price: error making request: dial tcp: i/o timeout")) ∧
    (Withdraw lockedCreditEnv aliceWorld (some alice) 4 "0xB0B").2
      = (Withdraw noQuoteEnv aliceWorld (some alice) 4 "0xB0B").2 ∧
    (Withdraw lockedCreditEnv aliceWorld (some alice) 4 "0xB0B").1.db.balanceOf alice.ID
      = some 6 ∧
    (Withdraw noQuoteEnv aliceWorld (some alice) 4 "0xB0B").1.db.balanceOf alice.ID
      = some 10 := by
  decide!

/-! ## Check -/

/-- Whenever the key parses and the observed balance `b` is not zero, `Check` goes on to
`Send` with the amount `b - 10^15`, whatever its sign: after the balance read, the
requests of that `Send` follow in the log. -/
theorem Check_nonzero_calls_Send (env : Env) (w : World) (u : User) (key : PrivateKey) (b : Int)
    (hkey : ParseECDSAPrivateKeyFromHex env u.Wallet.EncryptedPrivateKey = .ok key)
    (hbal : balanceResult env u.Wallet.PublicKey = .ok b) (hb : b ≠ 0) :
    ∃ rest, (Check env w (some u)).1.log
      = w.log ++ [.BalanceAt (env.HexToAddress u.Wallet.PublicKey)]
          ++ sendCalls env key (env.PubkeyToAddress env.adminPrivateKey) (b - 1000000000000000)
          ++ rest := by
  have hcalls := (balanceCalls_of_ok env _ b hbal).1
  simp only [Check, hkey, GetBalance_eq, hbal, hcalls, if_neg hb, gasReserve, Send_eq,
    GetEthereumPrice_eq, World.record]
  cases sendError env key (env.PubkeyToAddress env.adminPrivateKey) (b - 1000000000000000) with
  | some e => exact ⟨[], by simp⟩
  | none =>
    dsimp only
    rcases quoteResult env with ⟨price, qe⟩
    cases qe with
    | some e => exact ⟨[.QuotesLatest], by simp⟩
    | none =>
      dsimp only
      rcases AddToBalance w.db env.creditFaults u.ID
        (((b - 1000000000000000 : Int) : ℚ) / 1000000000000000000 * price) with ⟨db4, ce⟩
      cases ce with
      | some e => exact ⟨[.QuotesLatest], by simp⟩
      | none =>
        dsimp only
        rcases GetUser db4 env.getUserFault u.ID with ⟨ou, oe⟩
        cases oe <;> cases ou <;> exact ⟨[.QuotesLatest], by simp⟩

/-- C7, evaluated. The custodial address of the sample account holds exactly the fee
reserve. `Check` does not stop: it asks the node to send a transaction of 0 wei to the
operator address, fetches the price, credits 0 and returns the balance 10 with no error. -/
theorem Check_at_reserve_sends_zero :
    Check reserveEnv aliceWorld (some alice)
      = ({ db := aliceDB,
           log := [.BalanceAt "0xA11CE", .PendingNonceAt "0xA11CE", .SuggestGasPrice, .NetworkID,
             .BalanceAt "0xA11CE",
             .SendTransaction
               { nonce := 0, toAddress := "0xAD", amount := 0, gasLimit := 21000,
                 gasPrice := 1000000000 },
             .QuotesLatest] },
         .ret 10 none) := by
  decide!

/-- C8. Sweep with zero on-chain balance. For an account whose stored key parses and whose
custodial address the node reports to hold 0, `Check` returns the error "wallet has no ETH
balance"; the only request sent is that one balance read (no transfer, no price request),
and the store is as it was. -/
theorem Check_zero_balance (env : Env) (w : World) (u : User) (key : PrivateKey)
    (hkey : ParseECDSAPrivateKeyFromHex env u.Wallet.EncryptedPrivateKey = .ok key)
    (hbal : balanceResult env u.Wallet.PublicKey = .ok 0) :
    (Check env w (some u)).2 = .ret 0 (some (.errorf "wallet has no ETH balance")) ∧
    (Check env w (some u)).1.db = w.db ∧
    (Check env w (some u)).1.log
      = w.log ++ [.BalanceAt (env.HexToAddress u.Wallet.PublicKey)] := by
  have hcalls := (balanceCalls_of_ok env _ 0 hbal).1
  simp [Check, hkey, GetBalance_eq, hbal, hcalls]

/-- Witness of C8: the sample account with an empty custodial address. -/
theorem Check_zero_balance_witness :
    (Check emptyWalletEnv aliceWorld (some alice)).2
      = .ret 0 (some (.errorf "wallet has no ETH balance")) ∧
    (Check emptyWalletEnv aliceWorld (some alice)).1.db = aliceWorld.db ∧
    (Check emptyWalletEnv aliceWorld (some alice)).1.log
      = aliceWorld.log ++ [.BalanceAt (emptyWalletEnv.HexToAddress alice.Wallet.PublicKey)] :=
  Check_zero_balance emptyWalletEnv aliceWorld alice { D := 7 } rfl rfl

theorem GetUser_healthy (db : DB) (id : String) : GetUser db none id = (db.row id, none) := by
  unfold GetUser
  cases db.row id <;> simp

/-- C11. Debit/credit conservation. For an existing account with balance `B ≥ 0`,
`SubtractFromBalance` of `B` returns no error and leaves the balance 0, and `AddToBalance`
of `B` after it returns no error and brings the stored balance back to exactly `B`
(amounts being exact values, the store meeting no outside failure). -/
theorem debit_credit_conservation (db : DB) (id : String) (B : ℚ)
    (hB : db.balanceOf id = some B) (h0 : 0 ≤ B) :
    (SubtractFromBalance db .healthy id B).2 = none ∧
    (SubtractFromBalance db .healthy id B).1.balanceOf id = some 0 ∧
    (AddToBalance (SubtractFromBalance db .healthy id B).1 .healthy id B).2 = none ∧
    (AddToBalance (SubtractFromBalance db .healthy id B).1 .healthy id B).1.balanceOf id
      = some B := by
  have hsub : SubtractFromBalance db .healthy id B = (db.setBalance (B - B) id, none) := by
    rw [SubtractFromBalance_healthy db id B h0, hB]
    simp
  have hmid : (db.setBalance (B - B) id).balanceOf id = some (B - B) := by
    simp [balanceOf_setBalance_same, hB]
  have hadd : AddToBalance (db.setBalance (B - B) id) .healthy id B
      = ((db.setBalance (B - B) id).setBalance (B - B + B) id, none) := by
    rw [AddToBalance_healthy _ id B h0, hmid]
  rw [hsub, hadd]
  refine ⟨rfl, ?_, rfl, ?_⟩
  · simpa using hmid
  · simp [balanceOf_setBalance_same, hB]

/-- Witness of C11: the sample account, balance 10. -/
theorem debit_credit_conservation_witness :
    (SubtractFromBalance aliceDB .healthy "alice" 10).2 = none ∧
    (SubtractFromBalance aliceDB .healthy "alice" 10).1.balanceOf "alice" = some 0 ∧
    (AddToBalance (SubtractFromBalance aliceDB .healthy "alice" 10).1 .healthy "alice" 10).2
      = none ∧
    (AddToBalance (SubtractFromBalance aliceDB .healthy "alice" 10).1 .healthy "alice"
      10).1.balanceOf "alice" = some 10 :=
  debit_credit_conservation aliceDB "alice" 10 (by decide) (by norm_num)

/-! ## The handlers and an unknown user -/

/-- A lookup that meets no outside failure, for an id with no row, returns no user and no
error. -/
theorem GetUser_absent (db : DB) (id : String) (h : db.row id = none) :
    GetUser db none id = (none, none) := by
  rw [GetUser_healthy, h]

/-- `HandleCheck` answers 404 for an id with no row, without calling `Check`. -/
theorem HandleCheck_absent_user (env : Env) (w : World) (req : CheckRequest)
    (h : w.db.row req.User = none) :
    HandleCheck env none w { Method := "POST", decoded := .ok req }
      = (w, .httpError "User not found" 404) := by
  simp [HandleCheck, GetUser_absent _ _ h]

/-- `HandleGetUser` answers 404 for an id with no row. -/
theorem HandleGetUser_absent_user (w : World) (req : UserRequest)
    (h : w.db.row req.User = none) :
    HandleGetUser none w { Method := "POST", decoded := .ok req }
      = (w, .httpError "User not found" 404) := by
  simp [HandleGetUser, GetUser_absent _ _ h]

/-- `HandleWithdraw`, for an id with no row, hands the nil user to `Withdraw`, which
dereferences it: the handler panics and the world is as it was. -/
theorem HandleWithdraw_absent_user (env : Env) (w : World) (req : WithdrawRequest)
    (h : w.db.row req.User = none) :
    HandleWithdraw env none w { Method := "POST", decoded := .ok req } = (w, .panicked) := by
  simp [HandleWithdraw, GetUser_absent _ _ h, Withdraw]

/-- C12, evaluated. A withdrawal request names the user "bob", who is not in the sample
store. `GetUser` returns no user and no error; `HandleWithdraw` passes that nil user on to
`Withdraw`, which dereferences it at `user.ID`, so the handler panics instead of answering
with an error. `HandleCheck` and `HandleGetUser` answer 404 "User not found" for the same
user. -/
theorem HandleWithdraw_unknown_user_panics :
    GetUser aliceWorld.db none "bob" = (none, none) ∧
    Withdraw calmEnv aliceWorld none 1 "0xB0B" = (aliceWorld, .nilDeref) ∧
    HandleWithdraw calmEnv none aliceWorld bobWithdraw = (aliceWorld, .panicked) ∧
    HandleCheck calmEnv none aliceWorld { Method := "POST", decoded := .ok { User := "bob" } }
      = (aliceWorld, .httpError "User not found" 404) ∧
    HandleGetUser none aliceWorld { Method := "POST", decoded := .ok { User := "bob" } }
      = (aliceWorld, .httpError "User not found" 404) := by
  decide!

end EthCashier
